import Mathlib

/-!
Verification of the GoBuffer_DB storage engine against its specification.

The Go sources are shallowly embedded: machine integers become `Nat`/`Int`
with explicit `% 2^32` where 32-bit truncation matters, byte slices become
`List Nat`, in-place buffer mutation becomes functional splicing, and
fallible operations return `Except String`.  Loops are translated with
explicit fuel where the source iterates over linked structures.
-/

namespace GoDB

/-! ## Little-endian 32-bit helpers (encoding/binary + int32/uint32 casts) -/

/-- `binary.LittleEndian.PutUint32`: the four little-endian bytes of `n`
(truncated to 32 bits, as the Go `uint32` argument is). -/
def le32 (n : Nat) : List Nat :=
  [n % 256, n / 256 % 256, n / 65536 % 256, n / 16777216 % 256]

/-- `binary.LittleEndian.Uint32`: read four little-endian bytes. -/
def readLE32 (bs : List Nat) : Nat :=
  bs.getD 0 0 + 256 * bs.getD 1 0 + 65536 * bs.getD 2 0 + 16777216 * bs.getD 3 0

/-- Go `uint32(int32(v))` applied to an arbitrary (64-bit) integer:
two's-complement truncation to 32 bits, viewed as unsigned. -/
def toUInt32 (v : Int) : Nat :=
  (v % (4294967296 : Int)).toNat

/-- Go `int32(u)` for an unsigned 32-bit value: two's-complement view. -/
def toInt32 (n : Nat) : Int :=
  if n < 2147483648 then (n : Int) else (n : Int) - 4294967296

theorem le32_length (n : Nat) : (le32 n).length = 4 := rfl

theorem readLE32_le32_append (n : Nat) (rest : List Nat) :
    readLE32 (le32 n ++ rest) = n % 4294967296 := by
  simp only [le32, readLE32, List.cons_append, List.getD, List.get?,
    Option.getD_some]
  omega

theorem toUInt32_lt (v : Int) : toUInt32 v < 4294967296 := by
  simp only [toUInt32]
  omega

theorem toInt32_toUInt32_of_range (v : Int)
    (h1 : -2147483648 ≤ v) (h2 : v ≤ 2147483647) :
    toInt32 (toUInt32 v) = v := by
  simp only [toInt32, toUInt32]
  split <;> omega

/-! ## strconv.Atoi and strconv.FormatInt models -/

/-- Digits of `n` in base 10, most significant first; the first argument is
structural fuel bounding the digit count (32 covers every int64). -/
def natDigits : Nat → Nat → List Char
  | 0, _ => []
  | fuel + 1, n =>
    if n = 0 then []
    else natDigits fuel (n / 10) ++ [Char.ofNat (48 + n % 10)]

/-- Decimal rendering of a `Nat` (minimal digits). -/
def natRepr (n : Nat) : String :=
  if n = 0 then "0" else String.mk (natDigits 32 n)

/-- `strconv.FormatInt(v, 10)`: minimal-digit signed decimal. -/
def formatInt (v : Int) : String :=
  if v < 0 then "-" ++ natRepr v.natAbs else natRepr v.toNat

/-- `strconv.Atoi` (= ParseInt base 10, bit size 64): optional sign, at
least one decimal digit, value required to fit in int64; `none` models the
error return. -/
def atoi (s : String) : Option Int :=
  let cs := s.toList
  let signDigits : Int × List Char :=
    match cs with
    | '+' :: t => (1, t)
    | '-' :: t => (-1, t)
    | t => (1, t)
  let sign := signDigits.1
  let ds := signDigits.2
  if ds.isEmpty then none
  else if ds.any (fun c => ¬ (48 ≤ c.toNat ∧ c.toNat ≤ 57)) then none
  else
    let n : Nat := ds.foldl (fun a c => a * 10 + (c.toNat - 48)) 0
    let v : Int := sign * n
    if v < -9223372036854775808 ∨ 9223372036854775807 < v then none else some v

example : atoi "123" = some 123 := by decide
example : atoi "-45" = some (-45) := by decide
example : atoi "" = none := by decide
example : atoi "12a" = none := by decide
example : atoi "2147483648" = some 2147483648 := by decide
example : atoi "9223372036854775808" = none := by decide
example : formatInt (-2147483648) = "-2147483648" := by decide
example : formatInt 0 = "0" := by decide

/-! ## Record codec (relation.go)

`parseF` abstracts `strconv.ParseFloat(·, 32)` composed with
`math.Float32bits` (a 32-bit pattern, `none` on parse failure); `fmtF`
abstracts `math.Float32frombits` composed with `fmt.Sprintf("%g", ·)`.
Floating point itself is out of scope; everything the codec does with
the 32-bit pattern is modelled exactly. -/

inductive ColumnKind where
  | kindInt
  | kindFloat
  | kindChar
  | kindVarchar
deriving DecidableEq

structure ColumnInfo where
  name : String
  kind : ColumnKind
  size : Nat
deriving DecidableEq

structure Relation where
  name : String
  columns : List ColumnInfo
  recordSize : Nat
deriving DecidableEq

/-- Per-column byte width (the summands of `NewRelation`). -/
def colWidth (c : ColumnInfo) : Nat :=
  match c.kind with
  | .kindInt => 4
  | .kindFloat => 4
  | .kindChar => c.size
  | .kindVarchar => c.size

/-- `NewRelation`: record size is the sum of the column widths. -/
def mkRelation (name : String) (cols : List ColumnInfo) : Relation :=
  { name := name, columns := cols, recordSize := (cols.map colWidth).sum }

/-- Byte view of a Go string value (exact for the ASCII values the engine
stores; `[]byte(val)` in the source). -/
def strBytes (s : String) : List Nat :=
  s.toList.map Char.toNat

/-- Inverse byte view used when decoding. -/
def ofBytes (bs : List Nat) : String :=
  String.mk (bs.map Char.ofNat)

/-- One field of `WriteRecordToBuffer`: the bytes written for column `c`
and value `val`. -/
def encodeField (parseF : String → Option Nat) (c : ColumnInfo) (val : String) :
    Except String (List Nat) :=
  match c.kind with
  | .kindInt =>
    match atoi val with
    | none => .error ("col " ++ c.name ++ ": invalid int")
    | some v => .ok (le32 (toUInt32 v))
  | .kindFloat =>
    match parseF val with
    | none => .error ("col " ++ c.name ++ ": invalid float")
    | some bits => .ok (le32 bits)
  | .kindChar | .kindVarchar =>
    let b := (strBytes val).take c.size
    .ok (b ++ List.replicate (c.size - b.length) 0)

/-- The concatenated field bytes of a record. -/
def encodeFields (parseF : String → Option Nat) :
    List ColumnInfo → List String → Except String (List Nat)
  | [], _ => .ok []
  | _, [] => .ok []
  | c :: cs, v :: vs => do
    let b ← encodeField parseF c v
    let rest ← encodeFields parseF cs vs
    pure (b ++ rest)

/-- `Relation.WriteRecordToBuffer`: arity check, bounds check, then the
field bytes spliced into `buff` at `pos`. -/
def writeRecordToBuffer (r : Relation) (parseF : String → Option Nat)
    (vals : List String) (buff : List Nat) (pos : Nat) :
    Except String (List Nat) :=
  if vals.length ≠ r.columns.length then .error "record arity mismatch"
  else if pos + r.recordSize > buff.length then
    .error "buffer too small or pos out of range"
  else
    (encodeFields parseF r.columns vals).map
      (fun bs => buff.take pos ++ bs ++ buff.drop (pos + r.recordSize))

/-- One field of `ReadFromBuffer`: decoded string and remaining bytes.
CHAR/VARCHAR trim at the first zero byte, as the source loop does. -/
def decodeField (fmtF : Nat → String) (c : ColumnInfo) (bs : List Nat) :
    String × List Nat :=
  match c.kind with
  | .kindInt => (formatInt (toInt32 (readLE32 bs)), bs.drop 4)
  | .kindFloat => (fmtF (readLE32 bs), bs.drop 4)
  | .kindChar | .kindVarchar =>
    let b := bs.take c.size
    (ofBytes (b.takeWhile (fun x => x ≠ 0)), bs.drop c.size)

/-- Sequentially decode all columns. -/
def decodeFields (fmtF : Nat → String) :
    List ColumnInfo → List Nat → List String
  | [], _ => []
  | c :: cs, bs =>
    let p := decodeField fmtF c bs
    p.1 :: decodeFields fmtF cs p.2

/-- `Relation.ReadFromBuffer`: bounds check, then sequential decoding
starting at `pos`. -/
def readFromBuffer (r : Relation) (fmtF : Nat → String)
    (buff : List Nat) (pos : Nat) : Except String (List String) :=
  if pos + r.recordSize > buff.length then
    .error "buffer too small or pos out of range"
  else .ok (decodeFields fmtF r.columns (buff.drop pos))

/-! ## Round-trip facts about the codec -/

/-- The field value produced by decoding what encoding stored: INT renders
the int32-truncated parse, FLOAT renders the stored bit pattern, CHAR and
VARCHAR keep the bytes before the first zero byte among the first `size`. -/
def rtField (parseF : String → Option Nat) (fmtF : Nat → String)
    (c : ColumnInfo) (val : String) : String :=
  match c.kind with
  | .kindInt => formatInt (toInt32 (toUInt32 ((atoi val).getD 0)))
  | .kindFloat => fmtF (((parseF val).getD 0) % 4294967296)
  | .kindChar | .kindVarchar =>
    ofBytes (((strBytes val).take c.size).takeWhile (fun x => x ≠ 0))

theorem encodeField_length {parseF c val b}
    (h : encodeField parseF c val = .ok b) : b.length = colWidth c := by
  obtain ⟨nm, k, sz⟩ := c
  cases k <;> dsimp only [encodeField, colWidth] at h ⊢
  · cases ha : atoi val <;> rw [ha] at h <;> simp at h
    subst h; rfl
  · cases hp : parseF val <;> rw [hp] at h <;> simp at h
    subst h; rfl
  · simp only [Except.ok.injEq] at h
    subst h
    simp only [List.length_append, List.length_take, List.length_replicate]
    omega
  · simp only [Except.ok.injEq] at h
    subst h
    simp only [List.length_append, List.length_take, List.length_replicate]
    omega

theorem takeWhile_append_replicate_zero (p : Nat → Bool) (hp : p 0 = false)
    (t : List Nat) (k : Nat) :
    (t ++ List.replicate k 0).takeWhile p = t.takeWhile p := by
  induction t with
  | nil =>
    simp only [List.nil_append, List.takeWhile_nil]
    induction k with
    | zero => simp
    | succ k ih => simp [List.replicate_succ, List.takeWhile_cons, hp, ih]
  | cons a t ih =>
    cases ha : p a <;> simp [List.takeWhile_cons, ha, ih]

theorem decodeField_encodeField {parseF fmtF c val b}
    (h : encodeField parseF c val = .ok b) (rest : List Nat) :
    decodeField fmtF c (b ++ rest) = (rtField parseF fmtF c val, rest) := by
  have hlen := encodeField_length h
  obtain ⟨nm, k, sz⟩ := c
  cases k <;>
    dsimp only [encodeField, decodeField, rtField, colWidth] at h hlen ⊢
  · cases ha : atoi val <;> rw [ha] at h <;> simp at h
    subst h
    rw [readLE32_le32_append, Nat.mod_eq_of_lt (toUInt32_lt _)]
    simp [le32]
  · cases hp : parseF val <;> rw [hp] at h <;> simp at h
    subst h
    rw [readLE32_le32_append]
    simp [le32]
  · simp only [Except.ok.injEq] at h
    subst h
    rw [List.take_append_of_le_length (le_of_eq hlen.symm),
      List.take_of_length_le (le_of_eq hlen),
      List.drop_append_of_le_length (le_of_eq hlen.symm),
      List.drop_of_length_le (le_of_eq hlen), List.nil_append,
      takeWhile_append_replicate_zero _ (by rfl)]
  · simp only [Except.ok.injEq] at h
    subst h
    rw [List.take_append_of_le_length (le_of_eq hlen.symm),
      List.take_of_length_le (le_of_eq hlen),
      List.drop_append_of_le_length (le_of_eq hlen.symm),
      List.drop_of_length_le (le_of_eq hlen), List.nil_append,
      takeWhile_append_replicate_zero _ (by rfl)]

theorem encodeFields_ok {parseF} :
    ∀ (cols : List ColumnInfo) (vals : List String) (bs : List Nat),
    encodeFields parseF cols vals = .ok bs →
    vals.length = cols.length →
    bs.length = (cols.map colWidth).sum ∧
    ∀ (fmtF : Nat → String) (rest : List Nat),
      decodeFields fmtF cols (bs ++ rest) =
        List.zipWith (rtField parseF fmtF) cols vals
  | [], [], bs, h, _ => by
    simp [encodeFields] at h
    subst h
    simp [decodeFields]
  | c :: cs, v :: vs, bs, h, harity => by
    simp only [encodeFields, bind, Except.bind] at h
    cases hf : encodeField parseF c v <;> rw [hf] at h
    · exact absurd h (by simp)
    cases hr : encodeFields parseF cs vs <;> rw [hr] at h
    · exact absurd h (by simp)
    simp only [pure, Except.pure, Except.ok.injEq] at h
    subst h
    have harity' : vs.length = cs.length := by
      simpa using harity
    obtain ⟨ihlen, ihdec⟩ := encodeFields_ok cs vs _ hr harity'
    refine ⟨by simp [encodeField_length hf, ihlen], fun fmtF rest => ?_⟩
    simp only [decodeFields, List.zipWith_cons_cons, List.append_assoc,
      decodeField_encodeField hf, ihdec fmtF rest]

/-- A one-column INT relation, as built by `NewRelation`. -/
def relInt : Relation := mkRelation "Ints" [⟨"a", .kindInt, 0⟩]

/-- A one-column CHAR(3) relation. -/
def relChar3 : Relation := mkRelation "Chars" [⟨"c", .kindChar, 3⟩]

/-- C5 (corrected): encoding an INT field fails exactly when `strconv.Atoi`
fails, i.e. when the string is non-numeric or outside the **int64** range;
an in-int64 value is stored as its low 32 bits (`uint32(int32(v))`),
silently truncating values outside the int32 range. -/
theorem c5_amended_int_encoding (parseF : String → Option Nat) (val : String)
    (buff : List Nat) (pos : Nat) (hb : pos + 4 ≤ buff.length) :
    ((∃ e, writeRecordToBuffer relInt parseF [val] buff pos = .error e) ↔
      atoi val = none) ∧
    (∀ v, atoi val = some v →
      writeRecordToBuffer relInt parseF [val] buff pos =
        .ok (buff.take pos ++ le32 (toUInt32 v) ++ buff.drop (pos + 4))) := by
  have hng : ¬ buff.length < pos + 4 := by omega
  cases ha : atoi val with
  | none =>
    have hW : writeRecordToBuffer relInt parseF [val] buff pos =
        .error "col a: invalid int" := by
      simp [writeRecordToBuffer, relInt, mkRelation, encodeFields,
        encodeField, colWidth, ha, bind, Except.bind, Except.map, hng]
    exact ⟨by simp [hW], fun v hv => absurd hv (by simp)⟩
  | some v =>
    have hW : writeRecordToBuffer relInt parseF [val] buff pos =
        .ok (buff.take pos ++ le32 (toUInt32 v) ++ buff.drop (pos + 4)) := by
      simp [writeRecordToBuffer, relInt, mkRelation, encodeFields,
        encodeField, colWidth, ha, bind, Except.bind, pure, Except.pure,
        Except.map, hng, List.append_assoc]
    refine ⟨by simp [hW], fun w hw => ?_⟩
    obtain rfl : v = w := by
      simpa using hw
    exact hW

/-- Witness for `c5_amended_int_encoding` at a concrete input. -/
theorem c5_witness :
    writeRecordToBuffer relInt (fun _ => none) ["12"] [9, 9, 9, 9] 0 =
      .ok (([9, 9, 9, 9] : List Nat).take 0 ++ le32 (toUInt32 12) ++
        ([9, 9, 9, 9] : List Nat).drop (0 + 4)) :=
  (c5_amended_int_encoding (fun _ => none) "12" [9, 9, 9, 9] 0
    (by decide)).2 12 (by decide)

/-- C5 counterexample: 2147483648 exceeds the int32 maximum, yet encoding
succeeds, storing the two's-complement bytes of −2^31 instead of failing. -/
theorem c5_counterexample :
    (2147483647 : Int) < 2147483648 ∧
    writeRecordToBuffer relInt (fun _ => none) ["2147483648"] [7, 7, 7, 7] 0 =
      .ok [0, 0, 0, 128] := by
  constructor
  · norm_num
  · rfl

/-- C7 (corrected): a record whose numeric fields encode successfully
decodes, at the same offset, to `rtField` of each input: INT renders the
int32-truncated parse, FLOAT renders the stored bit pattern, and
CHAR/VARCHAR keep only the bytes before the first zero byte among the
first `n` (decoding trims at the first zero byte, so values with an
embedded zero byte do not round-trip past it). -/
theorem c7_amended_roundtrip (nm : String) (cols : List ColumnInfo)
    (parseF : String → Option Nat) (fmtF : Nat → String)
    (vals : List String) (buff buffOut : List Nat) (pos : Nat)
    (harity : vals.length = cols.length)
    (henc : writeRecordToBuffer (mkRelation nm cols) parseF vals buff pos =
      .ok buffOut) :
    readFromBuffer (mkRelation nm cols) fmtF buffOut pos =
      .ok (List.zipWith (rtField parseF fmtF) cols vals) := by
  have h1 : ¬ (vals.length ≠ (mkRelation nm cols).columns.length) := by
    simp [mkRelation, harity]
  unfold writeRecordToBuffer at henc
  rw [if_neg h1] at henc
  by_cases h2 : pos + (mkRelation nm cols).recordSize > buff.length
  · rw [if_pos h2] at henc
    exact absurd henc (by simp)
  rw [if_neg h2] at henc
  cases he : encodeFields parseF (mkRelation nm cols).columns vals with
  | error e =>
    rw [he] at henc
    exact absurd henc (by simp [Except.map])
  | ok bs =>
    rw [he] at henc
    simp only [Except.map, Except.ok.injEq] at henc
    obtain ⟨hbslen, hdec⟩ := encodeFields_ok cols vals bs he harity
    have hrs : (mkRelation nm cols).recordSize = (cols.map colWidth).sum := rfl
    have hpos : pos ≤ buff.length := by omega
    have htk : (buff.take pos).length = pos := by
      simp [List.length_take, hpos]
    have hlenOut : buffOut.length = buff.length := by
      rw [← henc]
      simp only [List.length_append, List.length_drop, htk, hbslen, ← hrs]
      omega
    unfold readFromBuffer
    rw [if_neg (by omega)]
    have hdrop : buffOut.drop pos = bs ++ buff.drop (pos + (mkRelation nm cols).recordSize) := by
      rw [← henc, List.append_assoc,
        List.drop_append_of_le_length (le_of_eq htk.symm),
        List.drop_of_length_le (le_of_eq htk)]
      simp [htk]
    rw [hdrop]
    exact congrArg Except.ok (hdec fmtF _)

/-- Witness for `c7_amended_roundtrip` at a concrete schema and record. -/
theorem c7_witness :
    readFromBuffer (mkRelation "w" [⟨"a", .kindInt, 0⟩, ⟨"b", .kindChar, 2⟩])
        (fun _ => "") [5, 0, 0, 0, 104, 105] 0 =
      .ok (List.zipWith (rtField (fun _ => none) (fun _ => ""))
        [⟨"a", .kindInt, 0⟩, ⟨"b", .kindChar, 2⟩] ["5", "hi"]) :=
  c7_amended_roundtrip "w" [⟨"a", .kindInt, 0⟩, ⟨"b", .kindChar, 2⟩]
    (fun _ => none) (fun _ => "") ["5", "hi"] [9, 9, 9, 9, 9, 9]
    [5, 0, 0, 0, 104, 105] 0 (by decide) rfl

/-- C7 counterexample: a CHAR(3) value with an embedded zero byte encodes
to its three raw bytes, but decoding trims at the first zero byte and
returns "a" rather than the first three bytes of the input. -/
theorem c7_counterexample :
    writeRecordToBuffer relChar3 (fun _ => none) ["a\x00b"] [7, 7, 7] 0 =
      .ok [97, 0, 98] ∧
    readFromBuffer relChar3 (fun _ => "") [97, 0, 98] 0 = .ok ["a"] ∧
    ("a" : String) ≠ "a\x00b" := by
  refine ⟨rfl, rfl, by decide⟩

/-! ## Disk manager model (disk/manager.go)

`PageId` is a pair of Go ints; the (-1,-1) sentinel means "none".
Segment files and their allocation bitmaps are byte lists; all bitmaps are
modelled as loaded (the source lazily loads missing ones as empty).
`log` records the `WritePage` calls, the observable disk writes. -/

abbrev PageId := Int × Int

def sentinelPid : PageId := (-1, -1)

structure DiskState where
  pageSize : Int
  maxFiles : Int
  bitmaps : List (List Nat)
  files : List (List Nat)
  log : List (PageId × List Nat)
deriving DecidableEq

/-- `DiskManager.AllocatePage`.  The source scans `idx = 0 .. MaxFiles-1`,
but every path of the loop body returns (claim a zero bitmap byte, or
extend this segment's file by one zero page and append a 1 bitmap byte),
so only `idx = 0` ever runs; the no-space error is reached only when the
loop body never runs, i.e. when `MaxFiles ≤ 0`. -/
def allocatePage (d : DiskState) : Except String (PageId × DiskState) :=
  if d.pageSize ≤ 0 then .error "invalid pagesize"
  else if 0 < d.maxFiles then
    let bmp := d.bitmaps.getD 0 []
    match bmp.findIdx? (fun b => b == 0) with
    | some i =>
      .ok (((0 : Int), (i : Int)),
        { d with bitmaps := d.bitmaps.set 0 (bmp.set i 1) })
    | none =>
      let file := d.files.getD 0 []
      .ok (((0 : Int), (bmp.length : Int)),
        { d with
          files := d.files.set 0 (file ++ List.replicate d.pageSize.toNat 0),
          bitmaps := d.bitmaps.set 0 (bmp ++ [1]) })
  else .error "no space: reached dm_maxfilecount"

/-- `DiskManager.FreePage`: clear the bitmap byte (no-op file-wise). -/
def freePageDM (d : DiskState) (pid : PageId) : Except String DiskState :=
  if pid.1 < 0 ∨ d.maxFiles ≤ pid.1 then .error "invalid file idx"
  else if pid.2 < 0 ∨ ((d.bitmaps.getD pid.1.toNat []).length : Int) ≤ pid.2 then
    .error "invalid page idx"
  else .ok { d with
    bitmaps := d.bitmaps.set pid.1.toNat
      ((d.bitmaps.getD pid.1.toNat []).set pid.2.toNat 0) }

/-- `padToPage`: zero-pad (or cut) `data` to exactly `size` bytes. -/
def padToPage (data : List Nat) (size : Nat) : List Nat :=
  if data.length = size then data
  else data.take size ++ List.replicate (size - data.length) 0

/-- The file-extension step of `WritePage`: append zeros until the file
is at least `n` bytes long. -/
def extendTo (file : List Nat) (n : Nat) : List Nat :=
  if file.length < n then file ++ List.replicate (n - file.length) 0 else file

/-- The `WriteAt` step of `WritePage`: overwrite the `ps`-byte window at
offset `off` of the (already extended) file with `page`. -/
def spliceAt (file : List Nat) (off : Nat) (page : List Nat) (ps : Nat) :
    List Nat :=
  (extendTo file (off + ps)).take off ++ page ++
    (extendTo file (off + ps)).drop (off + ps)

/-- The state change of a successful `WritePage`. -/
def writePageCore (d : DiskState) (pid : PageId) (data : List Nat) :
    DiskState :=
  let ps := d.pageSize.toNat
  let off := pid.2.toNat * ps
  let file := d.files.getD pid.1.toNat []
  { d with
    files := d.files.set pid.1.toNat (spliceAt file off (padToPage data ps) ps),
    log := d.log ++ [(pid, data)] }

/-- `DiskManager.WritePage`: length check, then index checks, then extend
the segment file with zeros up to `off + pageSize` if it is shorter, and
overwrite the page-sized window at `off` with the padded data. -/
def writePage (d : DiskState) (pid : PageId) (data : List Nat) :
    Except String DiskState :=
  if d.pageSize < (data.length : Int) then .error "data too large"
  else if pid.1 < 0 ∨ d.maxFiles ≤ pid.1 then .error "invalid file idx"
  else if pid.2 < 0 ∨ ((d.bitmaps.getD pid.1.toNat []).length : Int) ≤ pid.2 then
    .error "invalid page idx"
  else .ok (writePageCore d pid data)

/-- `DiskManager.ReadPage`: index checks, then the page-sized window of
the segment file, zero-filled past end-of-file (`ReadAt` + EOF). -/
def readPage (d : DiskState) (pid : PageId) : Except String (List Nat) :=
  if pid.1 < 0 ∨ d.maxFiles ≤ pid.1 then .error "invalid file idx"
  else if pid.2 < 0 ∨ ((d.bitmaps.getD pid.1.toNat []).length : Int) ≤ pid.2 then
    .error "invalid page idx"
  else
    let ps := d.pageSize.toNat
    let off := pid.2.toNat * ps
    let file := d.files.getD pid.1.toNat []
    let chunk := (file.drop off).take ps
    .ok (chunk ++ List.replicate (ps - chunk.length) 0)

/-- C8 (corrected): with a positive page size and at least one segment
allowed, AllocatePage always succeeds and always allocates from segment 0
(first zero bitmap byte, else extend segment 0 by one page): later
segments are never used and the no-space error is unreachable. -/
theorem c8_amended_alloc_segment_zero (d : DiskState)
    (hmf : 1 ≤ d.maxFiles) (hps : 0 < d.pageSize) :
    ∃ pi d', allocatePage d = .ok (((0 : Int), pi), d') := by
  unfold allocatePage
  rw [if_neg (by omega), if_pos (by omega)]
  cases h : (d.bitmaps.getD 0 []).findIdx? (fun b => b == 0) with
  | some i =>
    simp only [h]
    exact ⟨_, _, rfl⟩
  | none =>
    simp only [h]
    exact ⟨_, _, rfl⟩

/-- Witness for `c8_amended_alloc_segment_zero`. -/
theorem c8_witness :
    ∃ pi d', allocatePage
      { pageSize := 4, maxFiles := 8, bitmaps := [[1, 0]], files := [[]],
        log := [] } = .ok (((0 : Int), pi), d') :=
  c8_amended_alloc_segment_zero _ (by norm_num) (by norm_num)

/-- A disk state whose two allowed segments both have all-ones bitmaps. -/
def dFullSegs : DiskState :=
  { pageSize := 4, maxFiles := 2, bitmaps := [[1], [1]],
    files := [[0, 0, 0, 0], [0, 0, 0, 0]], log := [] }

/-- C8 counterexample: every segment of `dFullSegs` is full, yet
AllocatePage neither fails with the no-space error nor touches segment 1:
it grows segment 0 and returns page (0,1). -/
theorem c8_counterexample :
    (∀ b ∈ dFullSegs.bitmaps, ∀ x ∈ b, x = 1) ∧
    allocatePage dFullSegs = .ok (((0 : Int), (1 : Int)),
      { pageSize := 4, maxFiles := 2, bitmaps := [[1, 1], [1]],
        files := [[0, 0, 0, 0, 0, 0, 0, 0], [0, 0, 0, 0]], log := [] }) := by
  exact ⟨by decide, rfl⟩

theorem padToPage_eq (data : List Nat) (size : Nat) (h : data.length ≤ size) :
    padToPage data size = data ++ List.replicate (size - data.length) 0 := by
  unfold padToPage
  split
  · next heq => simp [heq]
  · rw [List.take_of_length_le h]

theorem extendTo_le_length (file : List Nat) (n : Nat) :
    n ≤ (extendTo file n).length := by
  unfold extendTo
  split
  · simp only [List.length_append, List.length_replicate]
    omega
  · omega

theorem spliceAt_getD (file page : List Nat) (off ps j : Nat)
    (hj : j < ps) (hpage : page.length = ps) :
    (spliceAt file off page ps).getD (off + j) 0 = page.getD j 0 := by
  unfold spliceAt
  have hlen := extendTo_le_length file (off + ps)
  have htake : ((extendTo file (off + ps)).take off).length = off := by
    simp only [List.length_take]
    omega
  rw [List.getD_append _ _ _ _
      (by simp only [List.length_append, htake, hpage]; omega),
    List.getD_append_right _ _ _ _ (by rw [htake]; omega), htake,
    Nat.add_sub_cancel_left]

/-- C10 (confirmed): WritePage rejects, without touching any state,
exactly when the data is longer than a page or the PageId is out of range
(file index outside 0..MaxFiles-1, page index outside the segment's
bitmap); on every valid call it stores the data zero-padded to exactly
pageSize bytes at the page's offset (the segment file being zero-extended
first if too short), leaves other segments and the bitmaps untouched, and
issues exactly one disk write. -/
theorem c10_writePage (d : DiskState) (pid : PageId) (data : List Nat) :
    ((∃ e, writePage d pid data = .error e) ↔
      (d.pageSize < (data.length : Int) ∨ pid.1 < 0 ∨ d.maxFiles ≤ pid.1 ∨
        pid.2 < 0 ∨ ((d.bitmaps.getD pid.1.toNat []).length : Int) ≤ pid.2)) ∧
    ((¬ (d.pageSize < (data.length : Int) ∨ pid.1 < 0 ∨ d.maxFiles ≤ pid.1 ∨
        pid.2 < 0 ∨ ((d.bitmaps.getD pid.1.toNat []).length : Int) ≤ pid.2)) →
      pid.1.toNat < d.files.length →
      ∃ d', writePage d pid data = .ok d' ∧
        (∀ j < d.pageSize.toNat,
          (d'.files.getD pid.1.toNat []).getD
              (pid.2.toNat * d.pageSize.toNat + j) 0 =
            (data ++ List.replicate (d.pageSize.toNat - data.length) 0).getD j 0) ∧
        (∀ k, k ≠ pid.1.toNat → d'.files.getD k [] = d.files.getD k []) ∧
        d'.bitmaps = d.bitmaps ∧
        d'.log = d.log ++ [(pid, data)]) := by
  constructor
  · unfold writePage
    by_cases h1 : d.pageSize < (data.length : Int)
    · rw [if_pos h1]
      exact ⟨fun _ => Or.inl h1, fun _ => ⟨_, rfl⟩⟩
    rw [if_neg h1]
    by_cases h2 : pid.1 < 0 ∨ d.maxFiles ≤ pid.1
    · rw [if_pos h2]
      exact ⟨fun _ => by tauto, fun _ => ⟨_, rfl⟩⟩
    rw [if_neg h2]
    by_cases h3 : pid.2 < 0 ∨ ((d.bitmaps.getD pid.1.toNat []).length : Int) ≤ pid.2
    · rw [if_pos h3]
      exact ⟨fun _ => by tauto, fun _ => ⟨_, rfl⟩⟩
    rw [if_neg h3]
    constructor
    · rintro ⟨e, he⟩
      exact absurd he (by simp)
    · intro hdisj
      exact absurd hdisj (by tauto)
  · intro hval hfile
    have h1 : ¬ d.pageSize < (data.length : Int) := fun h => hval (Or.inl h)
    have h2 : ¬ (pid.1 < 0 ∨ d.maxFiles ≤ pid.1) := fun h => hval (by tauto)
    have h3 : ¬ (pid.2 < 0 ∨
        ((d.bitmaps.getD pid.1.toNat []).length : Int) ≤ pid.2) :=
      fun h => hval (by tauto)
    have hlen : data.length ≤ d.pageSize.toNat := by omega
    have hok : writePage d pid data = .ok (writePageCore d pid data) := by
      unfold writePage
      rw [if_neg h1, if_neg h2, if_neg h3]
    have hsame : ∀ X : List Nat,
        (d.files.set pid.1.toNat X).getD pid.1.toNat [] = X := by
      intro X
      rw [List.getD_eq_getD_get?, List.get?_set_eq_of_lt _ hfile]
      rfl
    refine ⟨writePageCore d pid data, hok, ?_, ?_, rfl, rfl⟩
    · intro j hj
      show ((d.files.set pid.1.toNat _).getD pid.1.toNat []).getD _ 0 = _
      rw [hsame, padToPage_eq data _ hlen]
      exact spliceAt_getD _ _ _ _ _ hj
        (by simp only [List.length_append, List.length_replicate]; omega)
    · intro k hk
      show (d.files.set pid.1.toNat _).getD k [] = d.files.getD k []
      rw [List.getD_eq_getD_get?, List.get?_set_ne _ _ (Ne.symm hk)]
      exact (List.getD_eq_getD_get? _ _ _).symm

/-- Witness for `c10_writePage` at a concrete valid call. -/
theorem c10_witness :
    ∃ d', writePage dFullSegs ((0 : Int), (0 : Int)) [7] = .ok d' ∧
      (∀ j < (4 : Int).toNat,
        (d'.files.getD (0 : Int).toNat []).getD
            ((0 : Int).toNat * (4 : Int).toNat + j) 0 =
          ([7] ++ List.replicate ((4 : Int).toNat - 1) 0).getD j 0) ∧
      (∀ k, k ≠ (0 : Int).toNat →
        d'.files.getD k [] = dFullSegs.files.getD k []) ∧
      d'.bitmaps = dFullSegs.bitmaps ∧
      d'.log = dFullSegs.log ++ [(((0 : Int), (0 : Int)), [7])] :=
  (c10_writePage dFullSegs ((0 : Int), (0 : Int)) [7]).2 (by decide) (by decide)

/-! ## Buffer manager model (buffer side of manager.go)

Frames are a list; `repl` is the policy-ordered `container/list` holding
frame indices (head = front); `lookup` is the PageId → frame-index map.
On an error path the model returns no state: the claims below only
exercise runs whose operations succeed. -/

inductive Policy where
  | lru
  | mru
deriving DecidableEq

structure BufferFrame where
  pageId : PageId
  data : List Nat
  pin : Nat
  dirty : Bool
deriving DecidableEq

structure BufferState where
  policy : Policy
  frames : List BufferFrame
  repl : List Nat
  lookup : List (PageId × Nat)
deriving DecidableEq

/-- An unused frame as built by `NewBufferManager`. -/
def emptyFrame (ps : Nat) : BufferFrame :=
  { pageId := sentinelPid, data := List.replicate ps 0, pin := 0,
    dirty := false }

/-- `NewBufferManager`. -/
def newBufferManager (policy : Policy) (count ps : Nat) : BufferState :=
  { policy := policy, frames := List.replicate count (emptyFrame ps),
    repl := [], lookup := [] }

/-- Lookup in the PageId → frame-index map. -/
def lookupFind (l : List (PageId × Nat)) (pid : PageId) : Option Nat :=
  (l.find? (fun e => e.1 == pid)).map Prod.snd

/-- `delete(bm.lookup, key)`. -/
def lookupErase (l : List (PageId × Nat)) (pid : PageId) :
    List (PageId × Nat) :=
  l.filter (fun e => ¬ e.1 == pid)

/-- `list.MoveToBack` for a member index. -/
def moveToBack (repl : List Nat) (i : Nat) : List Nat :=
  repl.erase i ++ [i]

/-- `list.MoveToFront` for a member index. -/
def moveToFront (repl : List Nat) (i : Nat) : List Nat :=
  i :: repl.erase i

/-- The victim choice of the eviction branch of `GetPage` (LRU: front of
the list, MRU: back of the list). -/
def evictionCandidate (bs : BufferState) : Option Nat :=
  if bs.policy = .lru then bs.repl.head? else bs.repl.getLast?

/-- `BufferManager.GetPage`: hit → reorder and pin++; miss → first free
frame, else evict the policy victim (write back if dirty), then load. -/
def getPage (d : DiskState) (bs : BufferState) (pid : PageId) :
    Except String (Nat × BufferState × DiskState) :=
  match lookupFind bs.lookup pid with
  | some i =>
    let fr := bs.frames.getD i (emptyFrame 0)
    .ok (i,
      { bs with
        repl := if bs.policy = .lru then moveToBack bs.repl i
                else moveToFront bs.repl i,
        frames := bs.frames.set i { fr with pin := fr.pin + 1 } }, d)
  | none =>
    match bs.frames.findIdx?
        (fun f => f.pin == 0 && f.pageId == sentinelPid) with
    | some i =>
      (readPage d pid).map fun dataRead =>
        let fr := bs.frames.getD i (emptyFrame 0)
        let fr1 := { fr with pageId := pid, data := dataRead, pin := 1, dirty := false }
        (i,
          { bs with
            frames := bs.frames.set i fr1,
            repl := bs.repl ++ [i],
            lookup := bs.lookup ++ [(pid, i)] }, d)
    | none =>
      match evictionCandidate bs with
      | none => .error "no available frame to evict"
      | some vi =>
        let victim := bs.frames.getD vi (emptyFrame 0)
        if victim.pin ≠ 0 then .error "all frames pinned"
        else
          (if victim.dirty then writePage d victim.pageId victim.data
           else .ok d).bind fun d1 =>
            (readPage d1 pid).map fun dataRead =>
              let frv : BufferFrame :=
                { pageId := pid, data := dataRead, pin := 1, dirty := false }
              (vi,
                { bs with
                  frames := bs.frames.set vi frv,
                  repl := if bs.policy = .lru then moveToBack bs.repl vi
                          else moveToFront bs.repl vi,
                  lookup := lookupErase bs.lookup victim.pageId ++
                    [(pid, vi)] }, d1)

/-- `BufferManager.FreePage`: pin-- floored at 0; sticky dirty bit. -/
def freePageBM (bs : BufferState) (pid : PageId) (valdirty : Bool) :
    Except String BufferState :=
  match lookupFind bs.lookup pid with
  | none => .error "page not found in buffers"
  | some i =>
    let fr := bs.frames.getD i (emptyFrame 0)
    let fr1 := if 0 < fr.pin then { fr with pin := fr.pin - 1 } else fr
    .ok { bs with
      frames := bs.frames.set i
        (if valdirty then { fr1 with dirty := true } else fr1) }

/-- `BufferManager.SetCurrentReplacementPolicy`. -/
def setPolicy (bs : BufferState) (p : Policy) : BufferState :=
  { bs with policy := p }

/-- One iteration of the `FlushBuffers` loop: write back a dirty frame
unless its PageId equals the Go zero value (0,0) — the source compares
against `config.PageId{}`, not the (-1,-1) sentinel — then reset the
frame; the dirty bit is cleared only on the write-back path. -/
def flushFrame (dm : DiskState) (f : BufferFrame) :
    Except String (BufferFrame × DiskState) :=
  if f.dirty = true ∧ f.pageId ≠ ((0 : Int), (0 : Int)) then
    (writePage dm f.pageId f.data).map fun d1 =>
      ({ pageId := sentinelPid, pin := 0, dirty := false,
         data := List.replicate f.data.length 0 }, d1)
  else
    .ok ({ pageId := sentinelPid, pin := 0, dirty := f.dirty,
           data := List.replicate f.data.length 0 }, dm)

/-- The `FlushBuffers` loop over all frames, threading the disk state. -/
def flushGo (dm : DiskState) :
    List BufferFrame → Except String (List BufferFrame × DiskState)
  | [] => .ok ([], dm)
  | f :: fs =>
    (flushFrame dm f).bind fun r =>
      (flushGo r.2 fs).map fun r2 => (r.1 :: r2.1, r2.2)

/-- `BufferManager.FlushBuffers`: flush/reset every frame, then clear the
ordering list and the lookup map.  There is no pin-count check. -/
def flushBuffers (bs : BufferState) (dm : DiskState) :
    Except String (BufferState × DiskState) :=
  (flushGo dm bs.frames).map fun r =>
    ({ bs with frames := r.1, repl := [], lookup := [] }, r.2)

/-! ## FlushBuffers facts (C3, C4) -/

theorem flushFrame_reset {dm : DiskState} {f f' : BufferFrame}
    {dm' : DiskState} (h : flushFrame dm f = .ok (f', dm')) :
    f'.pin = 0 ∧ f'.pageId = sentinelPid := by
  unfold flushFrame at h
  split at h
  · cases hw : writePage dm f.pageId f.data <;> rw [hw] at h <;>
      simp [Except.map] at h
    obtain ⟨h1, _⟩ := h
    subst h1
    exact ⟨rfl, rfl⟩
  · simp only [Except.ok.injEq, Prod.mk.injEq] at h
    obtain ⟨h1, _⟩ := h
    subst h1
    exact ⟨rfl, rfl⟩

theorem flushGo_reset :
    ∀ (fs : List BufferFrame) (dm : DiskState) (fs' : List BufferFrame)
      (dm' : DiskState), flushGo dm fs = .ok (fs', dm') →
      ∀ f ∈ fs', f.pin = 0 ∧ f.pageId = sentinelPid := by
  intro fs
  induction fs with
  | nil =>
    intro dm fs' dm' h f hf
    simp [flushGo] at h
    obtain ⟨h1, _⟩ := h
    subst h1
    simp at hf
  | cons g gs ih =>
    intro dm fs' dm' h f hf
    unfold flushGo at h
    cases hg : flushFrame dm g <;> rw [hg] at h
    · exact absurd h (by simp [Except.bind])
    case ok r =>
      simp only [Except.bind] at h
      cases hrest : flushGo r.2 gs <;> rw [hrest] at h <;>
        simp [Except.map] at h
      case ok r2 =>
        obtain ⟨h1, _⟩ := h
        subst h1
        rcases List.mem_cons.mp hf with hcase | hcase
        · subst hcase
          exact flushFrame_reset hg
        · exact ih r.2 r2.1 r2.2 (by rw [hrest]) f hcase

theorem writePage_error_msg {d : DiskState} {pid : PageId}
    {data : List Nat} {e : String} (h : writePage d pid data = .error e) :
    e = "data too large" ∨ e = "invalid file idx" ∨ e = "invalid page idx" := by
  unfold writePage at h
  split at h
  · simp only [Except.error.injEq] at h
    exact Or.inl h.symm
  split at h
  · simp only [Except.error.injEq] at h
    exact Or.inr (Or.inl h.symm)
  split at h
  · simp only [Except.error.injEq] at h
    exact Or.inr (Or.inr h.symm)
  · exact absurd h (by simp)

theorem flushFrame_error {dm : DiskState} {f : BufferFrame} {e : String}
    (h : flushFrame dm f = .error e) :
    e = "data too large" ∨ e = "invalid file idx" ∨ e = "invalid page idx" := by
  unfold flushFrame at h
  split at h
  · cases hw : writePage dm f.pageId f.data <;> rw [hw] at h <;>
      simp [Except.map] at h
    case error a =>
      subst h
      exact writePage_error_msg hw
  · exact absurd h (by simp)

theorem flushGo_error :
    ∀ (fs : List BufferFrame) (dm : DiskState) (e : String),
    flushGo dm fs = .error e →
    e = "data too large" ∨ e = "invalid file idx" ∨ e = "invalid page idx" := by
  intro fs
  induction fs with
  | nil =>
    intro dm e h
    exact absurd h (by simp [flushGo])
  | cons g gs ih =>
    intro dm e h
    unfold flushGo at h
    cases hg : flushFrame dm g <;> rw [hg] at h
    case error a =>
      simp only [Except.bind] at h
      simp only [Except.error.injEq] at h
      subst h
      exact flushFrame_error hg
    case ok r =>
      simp only [Except.bind] at h
      cases hrest : flushGo r.2 gs <;> rw [hrest] at h <;>
        simp [Except.map] at h
      case error a =>
        subst h
        exact ih r.2 a hrest

/-- C3 (corrected): `FlushBuffers` performs no pin-count check.  Even when
some frame has pin > 0 it never fails with a pinned-frames error (its only
failures are propagated WritePage validation errors), and whenever it
returns successfully it HAS mutated the state: every frame is reset to
pin 0 and the sentinel PageId, and the lookup map and ordering list are
cleared. -/
theorem c3_flush_ignores_pins (bs : BufferState) (dm : DiskState)
    (hpin : ∃ f ∈ bs.frames, 0 < f.pin) :
    (∀ e, flushBuffers bs dm = .error e →
      e ≠ "frames pinned" ∧ e ≠ "all frames pinned") ∧
    (∀ bs' dm', flushBuffers bs dm = .ok (bs', dm') →
      (∀ f ∈ bs'.frames, f.pin = 0 ∧ f.pageId = sentinelPid) ∧
      bs'.lookup = [] ∧ bs'.repl = []) := by
  constructor
  · intro e he
    unfold flushBuffers at he
    cases hg : flushGo dm bs.frames <;> rw [hg] at he <;>
      simp [Except.map] at he
    case error a =>
      subst he
      rcases flushGo_error _ _ _ hg with h | h | h <;> subst h <;>
        exact ⟨by decide, by decide⟩
  · intro bs' dm' hok
    unfold flushBuffers at hok
    cases hg : flushGo dm bs.frames <;> rw [hg] at hok <;>
      simp [Except.map] at hok
    case ok r =>
      obtain ⟨h1, _⟩ := hok
      subst h1
      exact ⟨fun f hf => flushGo_reset _ _ _ _ hg f hf, rfl, rfl⟩

/-- A one-frame pool whose only frame is pinned (pin = 2). -/
def bsC3 : BufferState :=
  { policy := .lru,
    frames := [{ pageId := ((0 : Int), (1 : Int)), data := [5, 5, 5, 5],
                 pin := 2, dirty := false }],
    repl := [0], lookup := [(((0 : Int), (1 : Int)), 0)] }

/-- A small disk: one segment, one allocated page. -/
def dmC4 : DiskState :=
  { pageSize := 4, maxFiles := 1, bitmaps := [[1]], files := [[0, 0, 0, 0]],
    log := [] }

/-- C3 counterexample: with a pinned frame, FlushBuffers does not fail
with a pinned-frames error; it succeeds and mutates the state (the pin
count is zeroed, the frame reset, map and list cleared). -/
theorem c3_counterexample :
    0 < (bsC3.frames.getD 0 (emptyFrame 0)).pin ∧
    flushBuffers bsC3 dmC4 = .ok
      ({ policy := .lru,
         frames := [{ pageId := sentinelPid, data := [0, 0, 0, 0],
                      pin := 0, dirty := false }],
         repl := [], lookup := [] }, dmC4) := ⟨by decide, rfl⟩

/-- Witness for `c3_flush_ignores_pins` at the pinned pool `bsC3`. -/
theorem c3_witness :
    (∀ e, flushBuffers bsC3 dmC4 = .error e →
      e ≠ "frames pinned" ∧ e ≠ "all frames pinned") ∧
    (∀ bs' dm', flushBuffers bsC3 dmC4 = .ok (bs', dm') →
      (∀ f ∈ bs'.frames, f.pin = 0 ∧ f.pageId = sentinelPid) ∧
      bs'.lookup = [] ∧ bs'.repl = []) :=
  c3_flush_ignores_pins bsC3 dmC4
    ⟨{ pageId := ((0 : Int), (1 : Int)), data := [5, 5, 5, 5],
       pin := 2, dirty := false }, by decide, by decide⟩

/-- A one-frame pool holding the dirty page (0,0) — the Go zero-value
PageId — with nonzero data. -/
def bsC4 : BufferState :=
  { policy := .lru,
    frames := [{ pageId := ((0 : Int), (0 : Int)), data := [9, 9, 9, 9],
                 pin := 0, dirty := true }],
    repl := [0], lookup := [(((0 : Int), (0 : Int)), 0)] }

/-- C4 (code bug): FlushBuffers compares frames against the Go zero-value
PageId (0,0) instead of the (-1,-1) sentinel, so a resident dirty frame
holding page (0,0) is NOT written back (the returned disk state equals
the input: empty write log, unchanged file bytes) and its dirty bit
survives the reset, contradicting the specified write-back of every
resident dirty frame and the all-clean reset. -/
theorem c4_flush_skips_page00 :
    flushBuffers bsC4 dmC4 = .ok
      ({ policy := .lru,
         frames := [{ pageId := sentinelPid, data := [0, 0, 0, 0],
                      pin := 0, dirty := true }],
         repl := [], lookup := [] }, dmC4) ∧
    dmC4.log = [] ∧
    dmC4.files = [[0, 0, 0, 0]] := ⟨rfl, rfl, rfl⟩

/-! ## GetPage ordering facts (C6) -/

theorem getPage_hit {d : DiskState} {bs : BufferState} {pid : PageId}
    {i : Nat} (hres : lookupFind bs.lookup pid = some i) :
    getPage d bs pid = .ok (i,
      { bs with
        repl := if bs.policy = .lru then moveToBack bs.repl i
                else moveToFront bs.repl i,
        frames := bs.frames.set i
          { bs.frames.getD i (emptyFrame 0) with
            pin := (bs.frames.getD i (emptyFrame 0)).pin + 1 } }, d) := by
  unfold getPage
  simp only [hres]

/-- C6 (corrected): on a hit the two policies do NOT share a most-recent
end: LRU moves the hit frame to the back of the policy list while MRU
moves it to the front; eviction then takes the front under LRU and the
back under MRU.  Consequently under MRU, immediately after a hit on page
X the eviction candidate is the back frame, which is never X's frame when
the list holds at least two distinct indices — the code's MRU does not
evict the most-recently-used page. -/
theorem c6_amended_policy_orders (d : DiskState) (bs : BufferState)
    (pid : PageId) (i : Nat) (hres : lookupFind bs.lookup pid = some i) :
    (∀ i' bs' d', getPage d bs pid = .ok (i', bs', d') →
      i' = i ∧
      bs'.repl = (if bs.policy = .lru then moveToBack bs.repl i
        else moveToFront bs.repl i)) ∧
    (bs.policy = .mru → bs.repl.Nodup → i ∈ bs.repl → 2 ≤ bs.repl.length →
      ∀ i' bs' d', getPage d bs pid = .ok (i', bs', d') →
        evictionCandidate bs' ≠ some i) := by
  have hget := getPage_hit (d := d) hres
  constructor
  · intro i' bs' d' h
    rw [hget] at h
    simp only [Except.ok.injEq, Prod.mk.injEq] at h
    obtain ⟨h1, h2, _⟩ := h
    exact ⟨h1.symm, by rw [← h2]⟩
  · intro hmru hnod hmem hlen i' bs' d' h
    rw [hget] at h
    simp only [Except.ok.injEq, Prod.mk.injEq] at h
    obtain ⟨_, h2, _⟩ := h
    have hpol : bs'.policy = .mru := by rw [← h2, hmru]
    have hrepl : bs'.repl = moveToFront bs.repl i := by
      rw [← h2]
      simp [hmru]
    have hlen' : (bs.repl.erase i).length + 1 = bs.repl.length :=
      List.length_erase_add_one hmem
    obtain ⟨a, l', hal⟩ : ∃ a l', bs.repl.erase i = a :: l' := by
      cases hE : bs.repl.erase i with
      | nil =>
        rw [hE] at hlen'
        simp at hlen'
        omega
      | cons a l' => exact ⟨a, l', rfl⟩
    unfold evictionCandidate
    rw [hpol, if_neg (by simp), hrepl]
    unfold moveToFront
    rw [hal, List.getLast?_cons_cons]
    intro hEq
    have hmem' : i ∈ bs.repl.erase i := by
      rw [hal]
      exact List.mem_of_mem_getLast? hEq
    exact List.Nodup.not_mem_erase hnod hmem'

/-- A two-frame MRU pool with pages (0,0) in frame 0 and (0,1) in
frame 1; the policy list has frame 1 at the front, frame 0 at the back. -/
def bsC6 : BufferState :=
  { policy := .mru,
    frames := [{ pageId := ((0 : Int), (0 : Int)), data := [0, 0, 0, 0],
                 pin := 0, dirty := false },
               { pageId := ((0 : Int), (1 : Int)), data := [0, 0, 0, 0],
                 pin := 0, dirty := false }],
    repl := [1, 0],
    lookup := [(((0 : Int), (0 : Int)), 0), (((0 : Int), (1 : Int)), 1)] }

/-- A disk with three allocated pages in segment 0. -/
def dmC6 : DiskState :=
  { pageSize := 4, maxFiles := 1, bitmaps := [[1, 1, 1]], files := [[]],
    log := [] }

/-- Hit on page (0,0) under MRU, then a miss on page (0,2). -/
def c6run : Except String (Nat × BufferState × DiskState) :=
  (getPage dmC6 bsC6 ((0 : Int), (0 : Int))).bind fun r =>
    getPage r.2.2 r.2.1 ((0 : Int), (2 : Int))

/-- C6 counterexample: under MRU, after the hit on X = (0,0) the
subsequent miss evicts frame 1 (page (0,1)), not X's frame 0: X stays
resident and (0,1) is evicted, refuting "the victim chosen is X's
frame". -/
theorem c6_counterexample :
    (c6run.map fun r => r.1) = .ok 1 ∧
    (c6run.map fun r => lookupFind r.2.1.lookup ((0 : Int), (0 : Int))) =
      .ok (some 0) ∧
    (c6run.map fun r => lookupFind r.2.1.lookup ((0 : Int), (1 : Int))) =
      .ok none := ⟨rfl, rfl, rfl⟩

/-- Witness for `c6_amended_policy_orders` at the concrete pool `bsC6`. -/
theorem c6_witness :
    (∀ i' bs' d', getPage dmC6 bsC6 ((0 : Int), (1 : Int)) = .ok (i', bs', d') →
      i' = 1 ∧
      bs'.repl = (if bsC6.policy = .lru then moveToBack bsC6.repl 1
        else moveToFront bsC6.repl 1)) ∧
    (bsC6.policy = .mru → bsC6.repl.Nodup → 1 ∈ bsC6.repl →
      2 ≤ bsC6.repl.length →
      ∀ i' bs' d', getPage dmC6 bsC6 ((0 : Int), (1 : Int)) = .ok (i', bs', d') →
        evictionCandidate bs' ≠ some 1) :=
  c6_amended_policy_orders dmC6 bsC6 ((0 : Int), (1 : Int)) 1 rfl

/-! ## Pin counting (C9) -/

inductive BufOp where
  | get (pid : PageId)
  | free (pid : PageId) (dirty : Bool)

/-- The page an operation targets. -/
def opPid : BufOp → PageId
  | .get p => p
  | .free p _ => p

/-- Run a sequence of GetPage / FreePage calls. -/
def runOps (d : DiskState) (bs : BufferState) :
    List BufOp → Except String (BufferState × DiskState)
  | [] => .ok (bs, d)
  | .get pid :: ops => (getPage d bs pid).bind fun r => runOps r.2.2 r.2.1 ops
  | .free pid dirty :: ops =>
    (freePageBM bs pid dirty).bind fun bs1 => runOps d bs1 ops

/-- The 0-floored pin evolution of `pid` over an operation sequence:
+1 per GetPage, −1 per FreePage but only when positive. -/
def clampedPin (pid : PageId) (p0 : Nat) (ops : List BufOp) : Nat :=
  ops.foldl (fun n op =>
    match op with
    | .get p => if p = pid then n + 1 else n
    | .free p _ => if p = pid ∧ 0 < n then n - 1 else n) p0

theorem clampedPin_cons (pid : PageId) (p0 : Nat) (op : BufOp)
    (ops : List BufOp) :
    clampedPin pid p0 (op :: ops) =
      clampedPin pid
        (match op with
         | .get p => if p = pid then p0 + 1 else p0
         | .free p _ => if p = pid ∧ 0 < p0 then p0 - 1 else p0) ops := rfl

theorem freePageBM_resident {bs : BufferState} {pid : PageId} {i : Nat}
    (dirty : Bool) (hres : lookupFind bs.lookup pid = some i) :
    freePageBM bs pid dirty = .ok { bs with
      frames := bs.frames.set i
        (let fr := bs.frames.getD i (emptyFrame 0)
         let fr1 := if 0 < fr.pin then { fr with pin := fr.pin - 1 } else fr
         if dirty then { fr1 with dirty := true } else fr1) } := by
  unfold freePageBM
  simp only [hres]

theorem listGetD_set_self {α : Type _} (l : List α) (i : Nat) (a dflt : α)
    (h : i < l.length) : (l.set i a).getD i dflt = a := by
  rw [List.getD_eq_getD_get?, List.get?_set_eq_of_lt _ h]
  rfl

theorem listGetD_set_ne {α : Type _} (l : List α) (i j : Nat) (a dflt : α)
    (h : i ≠ j) : (l.set i a).getD j dflt = l.getD j dflt := by
  rw [List.getD_eq_getD_get?, List.get?_set_ne _ _ h]
  exact (List.getD_eq_getD_get? _ _ _).symm

/-- C9 (corrected): over any run of GetPage/FreePage calls on resident
pages, a resident page's pin count follows the 0-floored fold of its
operations: +1 per GetPage, −1 per FreePage only while positive.  The pin
equals #GetPage − #FreePage only when FreePage is never called at pin 0;
surplus FreePage calls leave the pin at 0 instead of driving the
difference negative. -/
theorem c9_amended_pin_counts (ops : List BufOp) :
    ∀ (d : DiskState) (bs : BufferState),
    (∀ op ∈ ops, lookupFind bs.lookup (opPid op) ≠ none) →
    (∀ p j, lookupFind bs.lookup p = some j → j < bs.frames.length) →
    (∀ p q j, lookupFind bs.lookup p = some j →
      lookupFind bs.lookup q = some j → p = q) →
    ∀ pid i, lookupFind bs.lookup pid = some i →
    ∀ bs' d', runOps d bs ops = .ok (bs', d') →
    (bs'.frames.getD i (emptyFrame 0)).pin =
      clampedPin pid ((bs.frames.getD i (emptyFrame 0)).pin) ops := by
  induction ops with
  | nil =>
    intro d bs _ _ _ pid i hres bs' d' hrun
    simp [runOps] at hrun
    obtain ⟨h1, _⟩ := hrun
    subst h1
    rfl
  | cons op ops ih =>
    intro d bs hops hvalid hinj pid i hres bs' d' hrun
    cases op with
    | get p =>
      have hp : lookupFind bs.lookup p ≠ none :=
        hops _ (List.mem_cons_self _ _)
      cases hfind : lookupFind bs.lookup p with
      | none => exact absurd hfind hp
      | some j =>
        have hjlen : j < bs.frames.length := hvalid p j hfind
        simp only [runOps] at hrun
        rw [getPage_hit hfind] at hrun
        simp only [Except.bind] at hrun
        have hstep := ih d
          { bs with
            repl := if bs.policy = Policy.lru then moveToBack bs.repl j
                    else moveToFront bs.repl j,
            frames := bs.frames.set j
              { bs.frames.getD j (emptyFrame 0) with
                pin := (bs.frames.getD j (emptyFrame 0)).pin + 1 } }
          (fun op hop => hops op (List.mem_cons_of_mem _ hop))
          (fun p' j' hf => by simpa using hvalid p' j' hf)
          hinj pid i hres bs' d' hrun
        rw [hstep, clampedPin_cons]
        by_cases hpp : p = pid
        · have hij : j = i := by
            subst hpp
            have := hfind.symm.trans hres
            injection this
          subst hij
          rw [listGetD_set_self _ _ _ _ hjlen]
          simp only [if_pos hpp]
        · have hji : j ≠ i := by
            intro hji
            exact hpp (hinj p pid j hfind (by rw [hji]; exact hres))
          rw [listGetD_set_ne _ _ _ _ _ hji]
          simp only [if_neg hpp]
    | free p dirtyFlag =>
      have hp : lookupFind bs.lookup p ≠ none :=
        hops _ (List.mem_cons_self _ _)
      cases hfind : lookupFind bs.lookup p with
      | none => exact absurd hfind hp
      | some j =>
        have hjlen : j < bs.frames.length := hvalid p j hfind
        simp only [runOps] at hrun
        rw [freePageBM_resident dirtyFlag hfind] at hrun
        simp only [Except.bind] at hrun
        have hstep := ih d
          { bs with
            frames := bs.frames.set j
              (let fr := bs.frames.getD j (emptyFrame 0)
               let fr1 := if 0 < fr.pin then { fr with pin := fr.pin - 1 }
                          else fr
               if dirtyFlag then { fr1 with dirty := true } else fr1) }
          (fun op hop => hops op (List.mem_cons_of_mem _ hop))
          (fun p' j' hf => by simpa using hvalid p' j' hf)
          hinj pid i hres bs' d' hrun
        rw [hstep, clampedPin_cons]
        by_cases hpp : p = pid
        · have hij : j = i := by
            subst hpp
            have := hfind.symm.trans hres
            injection this
          subst hij
          rw [listGetD_set_self _ _ _ _ hjlen]
          cases dirtyFlag <;>
            by_cases h0 : 0 < (bs.frames.getD j (emptyFrame 0)).pin <;>
            simp only [List.getD_eq_getElem?_getD] at h0 ⊢ <;>
            simp [h0, hpp]
        · have hji : j ≠ i := by
            intro hji
            exact hpp (hinj p pid j hfind (by rw [hji]; exact hres))
          rw [listGetD_set_ne _ _ _ _ _ hji]
          simp only [if_neg (by tauto : ¬ (p = pid ∧
            0 < (bs.frames.getD i (emptyFrame 0)).pin))]

theorem lookupFind_singleton {a : PageId} {k : Nat} {p : PageId} {j : Nat}
    (h : lookupFind [(a, k)] p = some j) : p = a ∧ j = k := by
  unfold lookupFind at h
  simp only [List.find?] at h
  cases hb : (a == p)
  · rw [hb] at h
    simp at h
  · rw [hb] at h
    simp at h
    have hap : a = p := by simpa using hb
    exact ⟨hap.symm, h.symm⟩

/-- A fresh single-frame LRU pool. -/
def bsC9 : BufferState := newBufferManager .lru 1 4

/-- A disk with one allocated page (0,0) whose segment file is empty. -/
def dmC9 : DiskState :=
  { pageSize := 4, maxFiles := 1, bitmaps := [[1]], files := [[]], log := [] }

/-- One GetPage then two FreePage calls on page (0,0). -/
def c9run : Except String (BufferState × DiskState) :=
  runOps dmC9 bsC9
    [.get ((0 : Int), (0 : Int)), .free ((0 : Int), (0 : Int)) false,
     .free ((0 : Int), (0 : Int)) false]

/-- C9 counterexample: after one GetPage and two FreePage calls on (0,0)
since its load, the pin count is 0, not the claimed #GetPage − #FreePage
= 1 − 2 = −1 (FreePage floors the pin at 0). -/
theorem c9_counterexample :
    (c9run.map fun r => (r.1.frames.getD 0 (emptyFrame 0)).pin) = .ok 0 ∧
    (1 : Int) - 2 ≠ (0 : Int) := ⟨rfl, by decide⟩

/-- A pool with page (0,0) resident in frame 0 at pin 0. -/
def bsC9w : BufferState :=
  { policy := .lru,
    frames := [{ pageId := ((0 : Int), (0 : Int)), data := [0, 0, 0, 0],
                 pin := 0, dirty := false }],
    repl := [0], lookup := [(((0 : Int), (0 : Int)), 0)] }

/-- The pool state after a hit on (0,0) and a dirty FreePage on it. -/
def bsC9wAfter : BufferState :=
  { policy := .lru,
    frames := [{ pageId := ((0 : Int), (0 : Int)), data := [0, 0, 0, 0],
                 pin := 0, dirty := true }],
    repl := [0], lookup := [(((0 : Int), (0 : Int)), 0)] }

/-- Witness for `c9_amended_pin_counts` on a concrete hit/free run. -/
theorem c9_witness :
    (bsC9wAfter.frames.getD 0 (emptyFrame 0)).pin =
      clampedPin ((0 : Int), (0 : Int))
        ((bsC9w.frames.getD 0 (emptyFrame 0)).pin)
        [.get ((0 : Int), (0 : Int)), .free ((0 : Int), (0 : Int)) true] :=
  c9_amended_pin_counts
    [.get ((0 : Int), (0 : Int)), .free ((0 : Int), (0 : Int)) true]
    dmC9 bsC9w (by decide)
    (fun p j h => by
      rcases lookupFind_singleton h with ⟨_, hj⟩
      subst hj
      decide)
    (fun p q j h1 h2 => by
      rcases lookupFind_singleton h1 with ⟨hp, _⟩
      rcases lookupFind_singleton h2 with ⟨hq, _⟩
      rw [hp, hq])
    ((0 : Int), (0 : Int)) 0 rfl bsC9wAfter dmC9 rfl

/-! ## Heap / relation manager model (RelationManager)

All page reads and writes go through the buffer manager with the
pin/unpin protocol, exactly as in the source.  The header-location
metadata file (`saveHeaderLocation`) touches only the filesystem, not the
disk/buffer state, and is omitted.  List walks carry explicit fuel; the
source loops are finite in all runs below. -/

structure RMState where
  rel : Relation
  headerPageId : PageId
  slotsPerPage : Nat
deriving DecidableEq

structure Sys where
  dm : DiskState
  bm : BufferState
  rm : RMState
deriving DecidableEq

/-- A RecordId: page and slot index. -/
abbrev RecordId := PageId × Nat

def sysGetPage (s : Sys) (pid : PageId) : Except String (Nat × Sys) :=
  (getPage s.dm s.bm pid).map fun r =>
    (r.1, { s with bm := r.2.1, dm := r.2.2 })

def sysFreePage (s : Sys) (pid : PageId) (dirty : Bool) :
    Except String Sys :=
  (freePageBM s.bm pid dirty).map fun bm1 => { s with bm := bm1 }

/-- The bytes of frame `i` (`bf.Data`). -/
def frameData (s : Sys) (i : Nat) : List Nat :=
  (s.bm.frames.getD i (emptyFrame 0)).data

/-- In-place mutation of `bf.Data`. -/
def setFrameData (s : Sys) (i : Nat) (bytesNew : List Nat) : Sys :=
  let fr := s.bm.frames.getD i (emptyFrame 0)
  let fr1 := { fr with data := bytesNew }
  { s with bm := { s.bm with frames := s.bm.frames.set i fr1 } }

/-- `readInt32`: little-endian int32 at byte offset `off`. -/
def readI32 (bytesL : List Nat) (off : Nat) : Int :=
  toInt32 (readLE32 (bytesL.drop off))

/-- `writeInt32` / `PutUint32`: write `uint32(v)` at byte offset `off`. -/
def writeI32 (bytesL : List Nat) (off : Nat) (v : Int) : List Nat :=
  bytesL.take off ++ le32 (toUInt32 v) ++ bytesL.drop (off + 4)

/-- Zero `n` bytes starting at `off`. -/
def zeroBytes (bytesL : List Nat) (off n : Nat) : List Nat :=
  bytesL.take off ++ List.replicate n 0 ++ bytesL.drop (off + n)

/-- `RelationManager.pageNext`. -/
def pageNextH (s : Sys) (pid : PageId) : Except String (PageId × Sys) := do
  let (i, s1) ← sysGetPage s pid
  let fx := readI32 (frameData s1 i) 8
  let fy := readI32 (frameData s1 i) 12
  let s2 ← sysFreePage s1 pid false
  if fx = -1 ∧ fy = -1 then pure (sentinelPid, s2) else pure ((fx, fy), s2)

/-- `RelationManager.pageSetNext`. -/
def pageSetNextH (s : Sys) (pid next : PageId) : Except String Sys := do
  let (i, s1) ← sysGetPage s pid
  let bytesNew :=
    if next = sentinelPid then
      writeI32 (writeI32 (frameData s1 i) 8 (-1)) 12 (-1)
    else writeI32 (writeI32 (frameData s1 i) 8 next.1) 12 next.2
  let s2 := setFrameData s1 i bytesNew
  sysFreePage s2 pid true

/-- `RelationManager.headerFirstWithSpace` (free-list head, offsets 8/12
of the header page). -/
def headerFirstWithSpaceH (s : Sys) : Except String (PageId × Sys) :=
  if s.rm.headerPageId = sentinelPid then .ok (sentinelPid, s)
  else do
    let (i, s1) ← sysGetPage s s.rm.headerPageId
    let fx := readI32 (frameData s1 i) 8
    let fy := readI32 (frameData s1 i) 12
    let s2 ← sysFreePage s1 s.rm.headerPageId false
    if fx = -1 ∧ fy = -1 then pure (sentinelPid, s2)
    else pure ((fx, fy), s2)

/-- `RelationManager.headerSetFirstWithSpace`. -/
def headerSetFirstWithSpaceH (s : Sys) (pid : PageId) : Except String Sys :=
  if s.rm.headerPageId = sentinelPid then .error "header not initialized"
  else do
    let (i, s1) ← sysGetPage s s.rm.headerPageId
    let bytesNew :=
      if pid = sentinelPid then
        writeI32 (writeI32 (frameData s1 i) 8 (-1)) 12 (-1)
      else writeI32 (writeI32 (frameData s1 i) 8 pid.1) 12 pid.2
    let s2 := setFrameData s1 i bytesNew
    sysFreePage s2 s.rm.headerPageId true

/-- The full-list head read inlined in `unlinkFromFull`,
`prependToFullList` and the scans (offsets 0/4 of the header page). -/
def headerFirstFullH (s : Sys) : Except String (PageId × Sys) := do
  let (i, s1) ← sysGetPage s s.rm.headerPageId
  let fx := readI32 (frameData s1 i) 0
  let fy := readI32 (frameData s1 i) 4
  let s2 ← sysFreePage s1 s.rm.headerPageId false
  if fx = -1 ∧ fy = -1 then pure (sentinelPid, s2) else pure ((fx, fy), s2)

/-- `RelationManager.firstFreeSlotInPage`: index of the first zero
bytemap byte, `none` when the page is full. -/
def firstFreeSlotInPageH (s : Sys) (pid : PageId) :
    Except String (Option Nat × Sys) := do
  let (i, s1) ← sysGetPage s pid
  let slots := readLE32 ((frameData s1 i).drop 16)
  let idx := (List.range slots).findIdx?
    (fun k => (frameData s1 i).getD (20 + k) 0 == 0)
  let s2 ← sysFreePage s1 pid false
  pure (idx, s2)

/-- Fuel bound for the predecessor-search loops. -/
def listFuel : Nat := 16

/-- The shared predecessor-walk of `unlinkFromWithSpace` and
`unlinkFromFull`: find `prev` with `prev.next = target` and splice. -/
def unlinkLoopGo (s : Sys) (prev target : PageId) :
    Nat → Except String Sys
  | 0 => .error "fuel exhausted"
  | fuel + 1 =>
    if prev = sentinelPid then .ok s
    else do
      let (curNext, s1) ← pageNextH s prev
      if curNext = target then do
        let (tnext, s2) ← pageNextH s1 target
        pageSetNextH s2 prev tnext
      else unlinkLoopGo s1 curNext target fuel

/-- `RelationManager.unlinkFromWithSpace`. -/
def unlinkFromWithSpace (s : Sys) (target : PageId) : Except String Sys := do
  let (head, s1) ← headerFirstWithSpaceH s
  if head = sentinelPid then .ok s1
  else if head = target then do
    let (nx, s2) ← pageNextH s1 head
    headerSetFirstWithSpaceH s2 nx
  else unlinkLoopGo s1 head target listFuel

/-- `RelationManager.unlinkFromFull`. -/
def unlinkFromFull (s : Sys) (target : PageId) : Except String Sys :=
  if s.rm.headerPageId = sentinelPid then .ok s
  else do
    let (head, s1) ← headerFirstFullH s
    if head = sentinelPid then .ok s1
    else if head = target then do
      let (nx, s2) ← pageNextH s1 head
      let (j, s3) ← sysGetPage s2 s.rm.headerPageId
      let bytesNew :=
        if nx = sentinelPid then
          writeI32 (writeI32 (frameData s3 j) 0 (-1)) 4 (-1)
        else writeI32 (writeI32 (frameData s3 j) 0 nx.1) 4 nx.2
      let s4 := setFrameData s3 j bytesNew
      sysFreePage s4 s.rm.headerPageId true
    else unlinkLoopGo s1 head target listFuel

/-- `RelationManager.prependToFullList`. -/
def prependToFullList (s : Sys) (pid : PageId) : Except String Sys :=
  if s.rm.headerPageId = sentinelPid then .error "header not initialized"
  else do
    let (i, s1) ← sysGetPage s s.rm.headerPageId
    let fx := readI32 (frameData s1 i) 0
    let fy := readI32 (frameData s1 i) 4
    let s2 ← sysFreePage s1 s.rm.headerPageId false
    let old := if fx = -1 ∧ fy = -1 then sentinelPid else ((fx, fy) : PageId)
    if old = pid then .ok s2
    else do
      let s3 ← pageSetNextH s2 pid old
      let (j, s4) ← sysGetPage s3 s.rm.headerPageId
      let s5 := setFrameData s4 j
        (writeI32 (writeI32 (frameData s4 j) 0 pid.1) 4 pid.2)
      sysFreePage s5 s.rm.headerPageId true

/-- `RelationManager.prependToWithSpace`: no-op only when `pid` is
already the free-list HEAD. -/
def prependToWithSpace (s : Sys) (pid : PageId) : Except String Sys :=
  if s.rm.headerPageId = sentinelPid then .error "header not initialized"
  else do
    let (i, s1) ← sysGetPage s s.rm.headerPageId
    let fx := readI32 (frameData s1 i) 8
    let fy := readI32 (frameData s1 i) 12
    let s2 ← sysFreePage s1 s.rm.headerPageId false
    let old := if fx = -1 ∧ fy = -1 then sentinelPid else ((fx, fy) : PageId)
    if old = pid then .ok s2
    else do
      let s3 ← pageSetNextH s2 pid old
      headerSetFirstWithSpaceH s3 pid

/-- `computeSlotsPerPage`: ⌊(pageSize − 20) / (1 + recordSize)⌋. -/
def computeSlotsPerPage (pageSize recordSize : Int) : Int :=
  (pageSize - 20).fdiv (1 + recordSize)

/-- `RelationManager.addDataPage`: allocate and initialise a data page,
link it as free-list head, creating the header page first if absent. -/
def addDataPage (s : Sys) : Except String (PageId × Sys) := do
  let (pid, dm1) ← allocatePage s.dm
  let s1 : Sys := { s with dm := dm1 }
  let slots := computeSlotsPerPage s1.dm.pageSize (s1.rm.rel.recordSize : Int)
  if slots ≤ 0 then .error "page too small for records"
  else do
    let (i, s2) ← sysGetPage s1 pid
    let b0 := writeI32 (writeI32 (writeI32 (writeI32 (writeI32
      (frameData s2 i) 0 (-1)) 4 (-1)) 8 (-1)) 12 (-1)) 16 slots
    let b1 := zeroBytes b0 20 slots.toNat
    let s3 := setFrameData s2 i b1
    let s4 ← sysFreePage s3 pid true
    if s4.rm.headerPageId = sentinelPid then do
      let (hpid, dm2) ← allocatePage s4.dm
      let s5 : Sys := { s4 with dm := dm2 }
      let (j, s6) ← sysGetPage s5 hpid
      let hb := writeI32 (writeI32 (writeI32 (writeI32
        (frameData s6 j) 0 (-1)) 4 (-1)) 8 pid.1) 12 pid.2
      let s7 := setFrameData s6 j hb
      let s8 ← sysFreePage s7 hpid true
      pure (pid, { s8 with rm :=
        { s8.rm with headerPageId := hpid, slotsPerPage := slots.toNat } })
    else do
      let (j, s6) ← sysGetPage s4 s4.rm.headerPageId
      let oldFx := readI32 (frameData s6 j) 8
      let oldFy := readI32 (frameData s6 j) 12
      let s7 := setFrameData s6 j
        (writeI32 (writeI32 (frameData s6 j) 8 pid.1) 12 pid.2)
      let s8 ← sysFreePage s7 s4.rm.headerPageId true
      let (m, s9) ← sysGetPage s8 pid
      let s10 := setFrameData s9 m
        (writeI32 (writeI32 (frameData s9 m) 8 oldFx) 12 oldFy)
      let s11 ← sysFreePage s10 pid true
      pure (pid, { s11 with rm :=
        { s11.rm with slotsPerPage := slots.toNat } })

/-- Fuel bound for the insert walk. -/
def insertFuel : Nat := 16

/-- The page-walk loop of `InsertRecord` (visited-set cycle guard,
allocation on exhaustion). -/
def insertGo (parseF : String → Option Nat) (rec : List String) :
    Nat → Sys → List PageId → PageId → Except String (RecordId × Sys)
  | 0, _, _, _ => .error "fuel exhausted"
  | fuel + 1, s, visited, pid =>
    if pid = sentinelPid then .error "could not insert record"
    else if pid ∈ visited then do
      let (npid, s1) ← addDataPage s
      insertGo parseF rec fuel s1 visited npid
    else do
      let visited1 := pid :: visited
      let (slotFree, s1) ← firstFreeSlotInPageH s pid
      match slotFree with
      | some slot => do
        let (i, s2) ← sysGetPage s1 pid
        let slots := readLE32 ((frameData s2 i).drop 16)
        let dataStart := 20 + slots
        let pos := dataStart + slot * s2.rm.rel.recordSize
        match writeRecordToBuffer s2.rm.rel parseF rec (frameData s2 i) pos with
        | .error e =>
          (sysFreePage s2 pid false).bind fun _ => .error e
        | .ok newData => do
          let d1 := newData.set (20 + slot) 1
          let full := (List.range slots).all (fun k => d1.getD (20 + k) 0 == 1)
          let s3 := setFrameData s2 i d1
          let s4 ← sysFreePage s3 pid true
          if full then do
            let s5 ← unlinkFromWithSpace s4 pid
            let s6 ← prependToFullList s5 pid
            pure (((pid, slot) : RecordId), s6)
          else pure (((pid, slot) : RecordId), s4)
      | none => do
        let (next, s2) ← pageNextH s1 pid
        if next = sentinelPid then do
          let (npid, s3) ← addDataPage s2
          insertGo parseF rec fuel s3 visited1 npid
        else insertGo parseF rec fuel s2 visited1 next

/-- `RelationManager.InsertRecord`. -/
def insertRecord (parseF : String → Option Nat) (s : Sys)
    (rec : List String) : Except String (RecordId × Sys) := do
  let s0 :=
    if s.rm.slotsPerPage = 0 then
      { s with rm := { s.rm with slotsPerPage :=
        (computeSlotsPerPage s.dm.pageSize (s.rm.rel.recordSize : Int)).toNat } }
    else s
  let s1 ←
    if s0.rm.headerPageId = sentinelPid then (addDataPage s0).map Prod.snd
    else pure s0
  let (cur, s2) ← headerFirstWithSpaceH s1
  let (cur2, s3) ←
    if cur = sentinelPid then addDataPage s2
    else pure ((cur, s2) : PageId × Sys)
  insertGo parseF rec insertFuel s3 [] cur2

/-- `RelationManager.DeleteRecord`: zero the bytemap byte and payload,
then — if the page now has a free slot (always, after a delete) — unlink
it from the full list and prepend it to the with-space list. -/
def deleteRecord (s : Sys) (rid : RecordId) : Except String Sys := do
  let pid := rid.1
  let (i, s1) ← sysGetPage s pid
  let slots := readLE32 ((frameData s1 i).drop 16)
  if slots ≤ rid.2 then
    (sysFreePage s1 pid false).bind fun _ => .error "invalid slot index"
  else if (frameData s1 i).getD (20 + rid.2) 0 = 0 then
    (sysFreePage s1 pid false).bind fun _ => .error "slot already free"
  else do
    let d1 := (frameData s1 i).set (20 + rid.2) 0
    let dataStart := 20 + slots
    let d2 := zeroBytes d1 (dataStart + rid.2 * s1.rm.rel.recordSize)
      s1.rm.rel.recordSize
    let s2 := setFrameData s1 i d2
    let s3 ← sysFreePage s2 pid true
    let (slotFree, s4) ← firstFreeSlotInPageH s3 pid
    match slotFree with
    | some _ => do
      let s5 ← unlinkFromFull s4 pid
      prependToWithSpace s5 pid
    | none => pure s4

/-! ## The insert/delete scenario deciding C1 and C2

Page size 30, one INT column (record size 4), hence 2 slots per page.
A fresh relation; page A = (0,0) and header = (0,1) are allocated by the
first insert, page B = (0,2) by the third. -/

def dm0 : DiskState :=
  { pageSize := 30, maxFiles := 4, bitmaps := [[]], files := [[]],
    log := [] }

def sys0 : Sys :=
  { dm := dm0, bm := newBufferManager .lru 4 30,
    rm := { rel := mkRelation "t" [⟨"a", .kindInt, 0⟩],
            headerPageId := sentinelPid, slotsPerPage := 0 } }

def pfNone : String → Option Nat := fun _ => none

def pidA : PageId := ((0 : Int), (0 : Int))
def pidB : PageId := ((0 : Int), (2 : Int))

/-- Insert "1", "2" (page A fills and moves to the full list), "3" (page
B is allocated), then delete (A,0): A moves back to the free list, in
front of B. -/
def heapScenario4 : Except String Sys :=
  (((insertRecord pfNone sys0 ["1"]).map Prod.snd).bind fun s =>
    (insertRecord pfNone s ["2"]).map Prod.snd).bind fun s =>
    ((insertRecord pfNone s ["3"]).map Prod.snd).bind fun s =>
      deleteRecord s (pidA, 0)

/-- ... then delete (B,0), with B already inside the free list. -/
def heapScenario5 : Except String Sys :=
  heapScenario4.bind fun s => deleteRecord s (pidB, 0)

/-- C1 (code bug): in `heapScenario4`, page B = (0,2) sits in the free
list at a NON-head position (free head = A, A.next = B, B.next =
sentinel), the full list is empty, and slot 0 of B is occupied.
`DeleteRecord (B,0)` does zero the bytemap byte and the payload, but it
does not leave the free-list linkage untouched: it re-prepends B,
rewriting B's next pointer from the sentinel to A and the free head from
A to B. -/
theorem c1_delete_relinks_free_page :
    (heapScenario4.bind fun s =>
      (headerFirstWithSpaceH s).map Prod.fst) = .ok pidA ∧
    (heapScenario4.bind fun s => (pageNextH s pidA).map Prod.fst) = .ok pidB ∧
    (heapScenario4.bind fun s =>
      (pageNextH s pidB).map Prod.fst) = .ok sentinelPid ∧
    (heapScenario4.bind fun s =>
      (headerFirstFullH s).map Prod.fst) = .ok sentinelPid ∧
    (heapScenario4.bind fun s =>
      (sysGetPage s pidB).map fun r => (frameData r.2 r.1).getD 20 0) =
      .ok 1 ∧
    (heapScenario5.bind fun s =>
      (sysGetPage s pidB).map fun r => (frameData r.2 r.1).getD 20 0) =
      .ok 0 ∧
    (heapScenario5.bind fun s =>
      (sysGetPage s pidB).map fun r => ((frameData r.2 r.1).drop 22).take 4) =
      .ok [0, 0, 0, 0] ∧
    (heapScenario5.bind fun s => (pageNextH s pidB).map Prod.fst) = .ok pidA ∧
    (heapScenario5.bind fun s =>
      (headerFirstWithSpaceH s).map Prod.fst) = .ok pidB :=
  ⟨rfl, rfl, rfl, rfl, rfl, rfl, rfl, rfl, rfl⟩

/-- C2 (code bug): after the insert/delete sequence of `heapScenario5`
(fresh relation; insert three records; delete (A,0); delete (B,0)) the
free list is CYCLIC — free head = B, B.next = A, A.next = B — so the walk
never reaches the (-1,-1) sentinel, violating the always-holds invariant
that both lists are acyclic and sentinel-terminated. -/
theorem c2_delete_creates_cycle :
    (heapScenario5.bind fun s =>
      (headerFirstWithSpaceH s).map Prod.fst) = .ok pidB ∧
    (heapScenario5.bind fun s => (pageNextH s pidB).map Prod.fst) = .ok pidA ∧
    (heapScenario5.bind fun s => (pageNextH s pidA).map Prod.fst) = .ok pidB ∧
    pidA ≠ sentinelPid ∧ pidB ≠ pidA :=
  ⟨rfl, rfl, rfl, by decide, by decide⟩

end GoDB
